import Mathlib

/-!
Verification of the query-understanding core of the hazard-search
application (`api/app.py`): the week-number extractor `find_week`, the
location-phrase extractor `find_location`, the record filter `search`,
and the `home` request handler.

The regular-expression searches are embedded as explicit character-level
matchers with the same alternation order, greediness and backtracking
behaviour as the Python patterns (case-insensitivity is modelled by
lowercasing the input first, which agrees with Python for ASCII text).
The external NLTK part-of-speech tagger consumed by `get_keywords` is
modelled as an explicit function parameter `posTag`.
-/

namespace HazardSearch

/-- ASCII lowercase of a string, character by character (Python `str.lower`
restricted to ASCII, which covers all data handled by the claims). -/
def strLower (s : String) : String := String.mk (s.data.map Char.toLower)

/-- Python `\s` whitespace class. -/
def isSpaceCh (c : Char) : Bool :=
  c == ' ' || c == '\t' || c == '\n' || c == '\r' || c == '\x0b' || c == '\x0c'

/-- Match a literal list of characters at the head of `s`; return the rest. -/
def chPre : List Char → List Char → Option (List Char)
  | [], s => some s
  | _, [] => none
  | p :: ps, c :: cs => if p = c then chPre ps cs else none

/-- Match a literal string at the head of `s`. -/
def litP (lit : String) (s : List Char) : Option (List Char) := chPre lit.data s

/-- Maximal run of decimal digits at the head (regex `\d+`, greedy). -/
def digitsTake : List Char → List Char × List Char
  | [] => ([], [])
  | c :: cs =>
    if c.isDigit then
      let p := digitsTake cs
      (c :: p.1, p.2)
    else ([], c :: cs)

/-- Maximal run of whitespace at the head (regex `\s*`, greedy). -/
def spacesTake : List Char → List Char × List Char
  | [] => ([], [])
  | c :: cs =>
    if isSpaceCh c then
      let p := spacesTake cs
      (c :: p.1, p.2)
    else ([], c :: cs)

/-- `pat` occurs as a contiguous sublist of `s` (Python `pat in s`). -/
def subCh (pat : List Char) : List Char → Bool
  | [] => (chPre pat []).isSome
  | c :: t => (chPre pat (c :: t)).isSome || subCh pat (t)

/-- Python substring containment `pat in hay`. -/
def strIn (pat hay : String) : Bool := subCh pat.data hay.data

/-! ## Week extractor (`find_week`, app.py lines 24-41)

Pattern:
`(first|second|third|fourth|fifth|one|two|three|four|five|\d+)\s*(?:st|nd|rd|th)?\s*week`
`|week\s*(first|second|third|fourth|fifth|one|two|three|four|five|\d+)`,
searched case-insensitively, first match wins. -/

/-- The `week_words` table of `find_week`. -/
def weekWordsL : List (String × Nat) :=
  [("first", 1), ("second", 2), ("third", 3), ("fourth", 4), ("fifth", 5),
   ("one", 1), ("two", 2), ("three", 3), ("four", 4), ("five", 5)]

/-- Group alternatives of the week pattern, in alternation order. -/
def weekWordToks : List String :=
  ["first", "second", "third", "fourth", "fifth",
   "one", "two", "three", "four", "five"]

/-- Ordinal suffix literals `st|nd|rd|th`, in alternation order. -/
def sfxToks : List String := ["st", "nd", "rd", "th"]

/-- Try the ordinal-suffix alternatives; at most one can match. -/
def sfxTry : List String → List Char → Option (String × List Char)
  | [], _ => none
  | t :: ts, s =>
    match litP t s with
    | some r => some (t, r)
    | none => sfxTry ts s

/-- Tail of week alternative A after the captured group:
`\s*(?:st|nd|rd|th)?\s*week`, with backtracking over the optional suffix. -/
def weekTailA (s : List Char) : Bool :=
  let s1 := (spacesTake s).2
  let fin := fun t => (litP "week" ((spacesTake t).2)).isSome
  match sfxTry sfxToks s1 with
  | some p => fin p.2 || fin s1
  | none => fin s1

/-- Week alternative A at a fixed position: try the word alternatives in
order (each followed by the tail), then a maximal digit run. Returns the
captured group. -/
def weekToksA : List String → List Char → Option String
  | [], s =>
    let p := digitsTake s
    if p.1.isEmpty then none
    else if weekTailA p.2 then some (String.mk p.1) else none
  | t :: ts, s =>
    match litP t s with
    | some r => if weekTailA r then some t else weekToksA ts s
    | none => weekToksA ts s

/-- First group alternative matching at the head of `s` (no tail after it). -/
def weekGrpTok : List String → List Char → Option String
  | [], s =>
    let p := digitsTake s
    if p.1.isEmpty then none else some (String.mk p.1)
  | t :: ts, s =>
    if (litP t s).isSome then some t else weekGrpTok ts s

/-- Week alternative B at a fixed position: `week\s*(group)`. -/
def weekAltB (s : List Char) : Option String :=
  match litP "week" s with
  | some r => weekGrpTok weekWordToks ((spacesTake r).2)
  | none => none

/-- The full week pattern anchored at one position: alternative A, else B. -/
def weekTryAt (s : List Char) : Option String :=
  match weekToksA weekWordToks s with
  | some g => some g
  | none => weekAltB s

/-- `re.search` scan for the week pattern: leftmost position first. -/
def weekScanA : List Char → Option String
  | [] => none
  | c :: t =>
    match weekTryAt (c :: t) with
    | some g => some g
    | none => weekScanA t

/-- `re.sub(r'(st|nd|rd|th)$', '', word)`: drop one trailing ordinal suffix. -/
def stripOrd (w : List Char) : List Char :=
  match w.reverse with
  | c1 :: c2 :: r =>
    if (c2 == 's' && c1 == 't') || (c2 == 'n' && c1 == 'd') ||
       (c2 == 'r' && c1 == 'd') || (c2 == 't' && c1 == 'h')
    then r.reverse else w
  | _ => w

/-- Decimal value of a digit run (Python `int(word)` on an all-digit string). -/
def natOfDigits (w : List Char) : Nat :=
  w.foldl (fun a c => a * 10 + (c.toNat - 48)) 0

/-- `find_week` (app.py lines 24-41): first match of the week pattern,
lowercased, trailing ordinal suffix stripped, then the `week_words` table,
then integer parsing of an all-digit token, otherwise `None`. -/
def find_week (text : String) : Option Nat :=
  match weekScanA (text.data.map Char.toLower) with
  | some tok =>
    let w := stripOrd tok.data
    match List.lookup (String.mk w) weekWordsL with
    | some n => some n
    | none =>
      if !w.isEmpty && w.all Char.isDigit then some (natOfDigits w)
      else none
  | none => none

/-! ## Location extractor (`find_location`, app.py lines 43-46)

Pattern:
`(first|second|third|fourth|fifth|\d+(?:st|nd|rd|th)?)\s+floor`
`|basement|roof|parking\s+area|main\s+entrance`,
with `re.findall`, case-insensitive.  Since the pattern has exactly one
capture group, `re.findall` returns the group content of each match: the
ordinal/digit token for the floor alternative and the empty string for the
four alternatives outside the group. -/

/-- The five alternatives of the location pattern, in alternation order. -/
inductive LocAlt where
  | floorA
  | baseA
  | roofA
  | parkA
  | mainA
deriving DecidableEq

/-- Word alternatives inside the floor capture group, in alternation order. -/
def floorWordToks : List String := ["first", "second", "third", "fourth", "fifth"]

/-- Tail after the floor group: `\s+floor` (at least one whitespace). -/
def floorTail (r : List Char) : Option (List Char) :=
  let p := spacesTake r
  if p.1.isEmpty then none else litP "floor" p.2

/-- Digit branch of the floor group: `\d+(?:st|nd|rd|th)?` followed by the
tail, backtracking from suffix to no-suffix. The captured group includes
the suffix. -/
def floorDigits (s : List Char) : Option (String × List Char) :=
  let p := digitsTake s
  if p.1.isEmpty then none
  else
    let withSfx :=
      match sfxTry sfxToks p.2 with
      | some q =>
        match floorTail q.2 with
        | some rest => some (String.mk p.1 ++ q.1, rest)
        | none => none
      | none => none
    match withSfx with
    | some x => some x
    | none =>
      match floorTail p.2 with
      | some rest => some (String.mk p.1, rest)
      | none => none

/-- Word branch of the floor group: try the ordinal words in order, each
followed by the tail. -/
def floorWords : List String → List Char → Option (String × List Char)
  | [], _ => none
  | t :: ts, s =>
    match litP t s with
    | some r =>
      match floorTail r with
      | some rest => some (t, rest)
      | none => floorWords ts s
    | none => floorWords ts s

/-- The floor alternative anchored at one position. -/
def floorTry (s : List Char) : Option (String × List Char) :=
  match floorWords floorWordToks s with
  | some x => some x
  | none => floorDigits s

/-- A two-word literal alternative `w1\s+w2` anchored at one position. -/
def twoWordTry (w1 w2 : String) (s : List Char) : Option (List Char) :=
  match litP w1 s with
  | some r =>
    let p := spacesTake r
    if p.1.isEmpty then none else litP w2 p.2
  | none => none

/-- The full location pattern anchored at one position: alternatives in
order, returning which alternative matched, the captured group (empty for
the alternatives outside the group) and the rest of the input. -/
def locTryAt (s : List Char) : Option (LocAlt × String × List Char) :=
  match floorTry s with
  | some x => some (LocAlt.floorA, x.1, x.2)
  | none =>
    match litP "basement" s with
    | some r => some (LocAlt.baseA, "", r)
    | none =>
      match litP "roof" s with
      | some r => some (LocAlt.roofA, "", r)
      | none =>
        match twoWordTry "parking" "area" s with
        | some r => some (LocAlt.parkA, "", r)
        | none =>
          match twoWordTry "main" "entrance" s with
          | some r => some (LocAlt.mainA, "", r)
          | none => none

/-- `re.findall` scan: non-overlapping matches left to right, resuming
after each match.  Every alternative consumes at least one character, so
fuel `s.length + 1` never runs out. -/
def locScan : Nat → List Char → List (LocAlt × String)
  | 0, _ => []
  | fuel + 1, s =>
    match locTryAt s with
    | some m => (m.1, m.2.1) :: locScan fuel m.2.2
    | none =>
      match s with
      | [] => []
      | _ :: t => locScan fuel t

/-- All matches of the location pattern in `text`, tagged with the
alternative that produced them. -/
def locMatchesOf (text : String) : List (LocAlt × String) :=
  locScan (text.data.length + 1) (text.data.map Char.toLower)

/-- `find_location` (app.py lines 43-46): the `re.findall` group captures,
lowercased. -/
def find_location (text : String) : List String :=
  (locMatchesOf text).map (fun m => strLower m.2)

/-! ## Catalogue records and the record filter (`search`, app.py lines 48-89)

A record is a JSON object; `search` reads each field through
`str(item.get(field, ""))`, so every field is modelled as the resulting
string (absent fields are the empty string).  `hazardType` and `timeline`
are present in the data model but never read by `search`. -/

structure Record where
  location : String
  activity : String
  hazard : String
  hazardType : String
  description : String
  timeline : String
  week : String
deriving DecidableEq

/-- `item_text` built in the loop of `search` (app.py lines 57-62):
location, activity, hazard and description joined by single spaces,
lowercased. -/
def item_text (item : Record) : String :=
  strLower (String.intercalate " "
    [item.location, item.activity, item.hazard, item.description])

/-- Python truthiness of the `week` slot in `if week or locations:`
(app.py line 82): `None` and `0` are falsy, every other integer is truthy. -/
def weekTruthy : Option Nat → Bool
  | none => false
  | some n => n != 0

/-- `week_match` (app.py lines 67-70). -/
def week_match (week : Option Nat) (item : Record) : Bool :=
  match week with
  | none => true
  | some w => item.week == toString w

/-- `location_match` (app.py lines 72-75). -/
def location_match (locations : List String) (item : Record) : Bool :=
  if locations.isEmpty then true
  else locations.any (fun loc => strIn loc (strLower item.location))

/-- `keyword_match` (app.py lines 77-80). -/
def keyword_match (keywords : List String) (item : Record) : Bool :=
  if keywords.isEmpty then true
  else keywords.any (fun k => strIn k (item_text item))

/-- `get_keywords` (app.py lines 18-22), with the external NLTK
tokenizer-and-tagger modelled as the function parameter `posTag`: keep the
words whose tag starts with "NN", lowercased. -/
def get_keywords (posTag : String → List (String × String)) (text : String) :
    List String :=
  ((posTag text).filter (fun wp => wp.2.startsWith "NN")).map
    (fun wp => strLower wp.1)

/-- Body of the `for item in database` loop of `search` (app.py lines
82-86): structured slots dominate when `week or locations` is truthy,
otherwise the keyword constraint decides. -/
def selectRec (week : Option Nat) (locations keywords : List String)
    (item : Record) : Bool :=
  if weekTruthy week || !locations.isEmpty then
    week_match week item && location_match locations item
  else
    keyword_match keywords item

/-- `search` (app.py lines 48-89): extract the slots, then append the
records that the loop body selects, in catalogue order.  Returns
`(results, keywords, restrictions)` with the `restrictions` dict modelled
as the pair `(week, locations)`. -/
def searchWith (posTag : String → List (String × String)) (db : List Record)
    (text : String) :
    List Record × List String × (Option Nat × List String) :=
  let keywords := (get_keywords posTag text).map strLower
  let week := find_week text
  let locations := (find_location text).map strLower
  (db.filter (fun item => selectRec week locations keywords item),
   keywords, (week, locations))

/-! ## The `home` request handler (app.py lines 92-110) -/

/-- The template arguments `home` renders: `restrictions` is `none` for
the initial empty dict `{}` and `some (week, locations)` after `search`
ran. -/
structure HomeOut where
  user_input : String
  keywords : List String
  restrictions : Option (Option Nat × List String)
  results : List Record
deriving DecidableEq

/-- `home` (app.py lines 92-110): on POST, read `user_input` from the form
and run `search` whenever the string is truthy, i.e. non-empty; otherwise
render the initial empty values. -/
def home (posTag : String → List (String × String)) (db : List Record)
    (isPost : Bool) (form_user_input : String) : HomeOut :=
  if isPost then
    if form_user_input != "" then
      let out := searchWith posTag db form_user_input
      ⟨form_user_input, out.2.1, some out.2.2, out.1⟩
    else ⟨form_user_input, [], none, []⟩
  else ⟨"", [], none, []⟩

/-! ## Specification-side definitions

These follow the words of the specification claims (not the source) and
are compared against the source-derived definitions above. -/

/-- Selection predicate following the words of claim C1: the structured
branch is taken when the extracted week slot is non-empty (`isSome`) or
the extracted locations set is non-empty; there the record is selected iff
`week_match` and `location_match`, and the keyword constraint decides
otherwise. -/
def selectSpecC1 (week : Option Nat) (locations keywords : List String)
    (item : Record) : Bool :=
  if week.isSome || !locations.isEmpty then
    week_match week item && location_match locations item
  else
    keyword_match keywords item

/-- Selection predicate following the amended claim C1: the structured
branch is taken when the week slot holds a non-zero integer or the
locations list is non-empty, matching Python truthiness of
`week or locations`. -/
def selectAmendedC1 (week : Option Nat) (locations keywords : List String)
    (item : Record) : Bool :=
  if (match week with
      | none => false
      | some n => decide (n ≠ 0)) || !locations.isEmpty then
    week_match week item && location_match locations item
  else
    keyword_match keywords item

/-- Haystack following the words of claim C2: all seven stringified record
fields joined by single spaces, lowercased. -/
def haystackSpecC2 (item : Record) : String :=
  strLower (String.intercalate " "
    [item.location, item.activity, item.hazard, item.hazardType,
     item.description, item.timeline, item.week])

/-- Haystack following the amended claim C2: only the four fields the code
joins (location, activity, hazard, description), lowercased. -/
def haystackAmendedC2 (item : Record) : String :=
  strLower (String.intercalate " "
    [item.location, item.activity, item.hazard, item.description])

/-- Week-token normalization following the words of claim C8: strip one
trailing ordinal suffix, map through the fixed ordinal table, parse a
purely numeric token as an integer, and yield `none` for anything else. -/
def weekNormSpecC8 (tok : String) : Option Nat :=
  let w := stripOrd tok.data
  match List.lookup (String.mk w) weekWordsL with
  | some n => some n
  | none =>
    if !w.isEmpty && w.all Char.isDigit then some (natOfDigits w)
    else none

/-! ## Concrete fixtures used by witnesses and counterexamples -/

/-- A part-of-speech tagger stub returning no tokens. -/
def ptNone : String → List (String × String) := fun _ => []

/-- The record `{location: "Basement", week: "2"}` of the specification's
test scenario. -/
def recBasement2 : Record := ⟨"Basement", "", "", "", "", "", "2"⟩

/-- A record whose only populated field is `week = "1"`. -/
def recWeek1 : Record := ⟨"", "", "", "", "", "", "1"⟩

/-- A record whose only populated field is `hazardType = "fire"`. -/
def recFire : Record := ⟨"", "", "", "fire", "", "", ""⟩

/-- A record located on the roof. -/
def recRoof : Record := ⟨"Roof", "", "", "", "", "", ""⟩

/-! ## Helper lemmas -/

/-- The empty string is a Python substring of every string. -/
theorem strIn_empty (hay : String) : strIn "" hay = true := by
  unfold strIn
  cases h : hay.data with
  | nil => simp [subCh, chPre]
  | cons c t => simp [subCh, chPre]

/-- Every alternative of the location pattern other than the floor
alternative captures the empty string. -/
theorem locTryAt_nonfloor (s : List Char) (a : LocAlt) (g : String)
    (rest : List Char) (h : locTryAt s = some (a, g, rest))
    (hne : a ≠ LocAlt.floorA) : g = "" := by
  unfold locTryAt at h
  repeat' split at h
  all_goals try exact Option.noConfusion h
  all_goals simp only [Option.some.injEq, Prod.mk.injEq] at h
  · exact absurd h.1.symm hne
  · exact h.2.1.symm
  · exact h.2.1.symm
  · exact h.2.1.symm
  · exact h.2.1.symm

/-- Unfolding equation for the scan at zero fuel. -/
theorem locScan_zero (s : List Char) : locScan 0 s = [] := rfl

/-- Unfolding equation for the scan at positive fuel. -/
theorem locScan_succ (n : Nat) (s : List Char) :
    locScan (n + 1) s =
      match locTryAt s with
      | some m => (m.1, m.2.1) :: locScan n m.2.2
      | none =>
        match s with
        | [] => []
        | _ :: t => locScan n t := rfl

/-- In the `re.findall` scan every match from a non-floor alternative
carries the empty captured group. -/
theorem locScan_nonfloor :
    ∀ fuel s m, m ∈ locScan fuel s → m.1 ≠ LocAlt.floorA → m.2 = "" := by
  intro fuel
  induction fuel with
  | zero => intro s m hm; rw [locScan_zero] at hm; simp at hm
  | succ n ih =>
    intro s m hm hne
    rw [locScan_succ] at hm
    cases ht : locTryAt s with
    | some x =>
      rw [ht] at hm
      rcases List.mem_cons.mp hm with heq | htail
      · subst heq
        exact locTryAt_nonfloor s x.1 x.2.1 x.2.2 (by rw [ht]) hne
      · exact ih x.2.2 m htail hne
    | none =>
      rw [ht] at hm
      cases s with
      | nil => simp at hm
      | cons c t => exact ih t m hm hne

/-- Selecting with the amended C1 predicate agrees with the loop body of
`search`. -/
theorem selAmended_eq (w : Option Nat) (l k : List String) (i : Record) :
    selectAmendedC1 w l k i = selectRec w l k i := by
  cases w with
  | none => rfl
  | some n =>
    cases n with
    | zero => rfl
    | succ m => rfl

/-- Filtering with a constantly-true predicate keeps the whole list. -/
theorem filterAll (l : List Record) :
    l.filter (fun _ => true) = l := by
  induction l with
  | nil => rfl
  | cons a t ih => simp [List.filter, ih]

/-! ## Claim theorems -/

/-- Claim C1 counterexample: on the query "week 0" the extracted week slot
is `some 0` (non-empty) and the locations set is empty, yet `search` does
not select by `week_match AND location_match` as the claim's selection
predicate `selectSpecC1` demands: the code takes the keyword branch and
keeps a record whose week is "1". -/
theorem c1_counterexample :
    (searchWith ptNone [recWeek1] "week 0").1 ≠
      [recWeek1].filter (fun item =>
        selectSpecC1 (find_week "week 0")
          ((find_location "week 0").map strLower)
          ((get_keywords ptNone "week 0").map strLower) item) := by
  decide

/-- Claim C1 amended: `search` selects records by `week_match AND
location_match` exactly when the week slot is a non-zero integer or the
locations list is non-empty (Python truthiness), and by `keyword_match`
otherwise. -/
theorem c1_amended (posTag : String → List (String × String))
    (db : List Record) (text : String) :
    (searchWith posTag db text).1 =
      db.filter (fun item =>
        selectAmendedC1 (find_week text)
          ((find_location text).map strLower)
          ((get_keywords posTag text).map strLower) item) := by
  simp only [searchWith]
  exact (List.filter_congr (fun a _ => selAmended_eq _ _ _ a)).symm

/-- Claim C2 counterexample: for a record whose only populated field is
`hazardType = "fire"`, the haystack the code builds differs from the
seven-field haystack of the claim; the claim's haystack contains "fire"
while the code's does not. -/
theorem c2_counterexample :
    item_text recFire ≠ haystackSpecC2 recFire ∧
      strIn "fire" (haystackSpecC2 recFire) = true ∧
      strIn "fire" (item_text recFire) = false := by
  decide

/-- Claim C2 amended: the haystack used for keyword matching is the
space-joined concatenation of the stringified location, activity, hazard
and description fields, lowercased (hazardType, timeline and week are not
included). -/
theorem c2_amended (item : Record) :
    item_text item = haystackAmendedC2 item := rfl

/-- Claim C3 counterexample: on "Second Floor incident" the extractor does
not yield the phrase "second floor"; `re.findall` returns only the capture
group, so the result is `["second"]`. -/
theorem c3_counterexample :
    find_location "Second Floor incident" = ["second"] ∧
      "second floor" ∉ find_location "Second Floor incident" := by
  decide

/-- Claim C3 amended: the extractor returns the capture-group content of
each match: the ordinal/digit token for floor matches and the empty string
for the basement/roof/parking area/main entrance alternatives; the phrase
"main site" is not part of the pattern and matches nothing. -/
theorem c3_amended :
    find_location "Second Floor incident" = ["second"] ∧
      find_location "The basement and roof" = ["", ""] ∧
      find_location "Parking Area near the main entrance" = ["", ""] ∧
      find_location "main site" = [] := by
  exact ⟨rfl, rfl, rfl, rfl⟩

/-- Claim C4 counterexample: a whitespace-only query is truthy in Python,
so `home` does run it through `search`: the restrictions are populated and
the filter returns the whole catalogue instead of reporting "no query
provided". -/
theorem c4_counterexample :
    home ptNone [recBasement2] true " " =
      ⟨" ", [], some (none, []), [recBasement2]⟩ := by
  decide

/-- Claim C4 amended: on POST only the exactly-empty query skips `search`
(rendering empty keywords, restrictions and results, with no "no query
provided" message); every non-empty query, including whitespace-only ones,
is run through `search`. -/
theorem c4_amended (posTag : String → List (String × String))
    (db : List Record) (s : String) :
    home posTag db true s =
      if s = "" then ⟨"", [], none, []⟩
      else ⟨s, (searchWith posTag db s).2.1,
            some (searchWith posTag db s).2.2, (searchWith posTag db s).1⟩ := by
  by_cases h : s = ""
  · subst h; rfl
  · simp [home, h]

/-- Claim C5: with a catalogue holding exactly the record
`{location: "Basement", week: "2"}`, the query "hazards in basement week
2" returns exactly that record and "hazards in basement week 3" returns
nothing, whatever keywords the tagging capability produces. -/
theorem c5_basement_weeks (posTag : String → List (String × String)) :
    (searchWith posTag [recBasement2] "hazards in basement week 2").1 =
        [recBasement2] ∧
      (searchWith posTag [recBasement2] "hazards in basement week 3").1 = [] :=
  ⟨rfl, rfl⟩

/-- Claim C6: the week extractor at its claimed inputs. "week 3" and
"3rd week" yield 3 as claimed, but "third week" yields `none`: the
ordinal-suffix strip is applied before the table lookup and turns "third"
into "thi", which the `week_words` table (whose entry third maps to 3
documents the intent) can never match. -/
theorem c6_week_extractor_values :
    find_week "third week" = none ∧
      find_week "week 3" = some 3 ∧
      find_week "3rd week" = some 3 :=
  ⟨rfl, rfl, rfl⟩

/-- Claim C7: when no week, no location and no keyword is extracted,
`search` returns the entire catalogue unchanged and in order. -/
theorem c7_empty_slots_full_catalogue
    (posTag : String → List (String × String)) (db : List Record)
    (text : String) (hw : find_week text = none)
    (hl : find_location text = []) (hk : get_keywords posTag text = []) :
    (searchWith posTag db text).1 = db := by
  simp only [searchWith, hw, hl, hk, List.map_nil]
  have h1 : ∀ item : Record, selectRec none [] [] item = true := fun _ => rfl
  simp only [h1]
  exact filterAll db

/-- Witness for C7 at the query "zzz", which yields no week, no location
and (under the stub tagger) no keyword. -/
theorem c7_witness :
    (searchWith ptNone [recBasement2] "zzz").1 = [recBasement2] :=
  c7_empty_slots_full_catalogue ptNone [recBasement2] "zzz" rfl rfl rfl

/-- Claim C8: `find_week` factors through the scan for the first match and
the claimed normalization pipeline: no match yields `none`, and a matched
token is stripped of one trailing ordinal suffix, looked up in the fixed
ordinal table, parsed as an integer when purely numeric, and yields `none`
otherwise — never a raw string (the result type is `Option Nat`). -/
theorem c8_week_pipeline (text : String) :
    (weekScanA (text.data.map Char.toLower) = none → find_week text = none) ∧
      (∀ tok, weekScanA (text.data.map Char.toLower) = some tok →
        find_week text = weekNormSpecC8 tok) := by
  constructor
  · intro h; simp only [find_week, h]
  · intro tok h; simp only [find_week, h, weekNormSpecC8]

/-- Witness for C8 at the query "week 3", whose first matched token is
"3". -/
theorem c8_witness : find_week "week 3" = weekNormSpecC8 "3" :=
  (c8_week_pipeline "week 3").2 "3" rfl

/-- Claim C9: when the extracted week slot is the integer 0 and no
location is extracted, `search` takes the keyword branch: records are
selected by `keyword_match` alone even though a week slot was extracted. -/
theorem c9_week_zero_keyword_branch
    (posTag : String → List (String × String)) (db : List Record)
    (text : String) (hw : find_week text = some 0)
    (hl : find_location text = []) :
    (searchWith posTag db text).1 =
      db.filter (fun item =>
        keyword_match ((get_keywords posTag text).map strLower) item) := by
  simp only [searchWith, hw, hl, List.map_nil]
  exact List.filter_congr (fun a _ => rfl)

/-- Witness for C9 at the query "week 0", whose extracted week slot is
`some 0` and whose locations list is empty. -/
theorem c9_witness :
    (searchWith ptNone [recWeek1] "week 0").1 =
      [recWeek1].filter (fun item =>
        keyword_match ((get_keywords ptNone "week 0").map strLower) item) :=
  c9_week_zero_keyword_branch ptNone [recWeek1] "week 0" rfl rfl

/-- Claim C10: whenever the location scan matches one of the alternatives
outside the capture group, the extractor contributes an empty-string
entry, and consequently `location_match` holds for every record, since the
empty string is a substring of every location field. -/
theorem c10_nongroup_empty_string (text : String)
    (h : (locMatchesOf text).any (fun m => m.1 != LocAlt.floorA) = true) :
    "" ∈ find_location text ∧
      ∀ item : Record,
        location_match ((find_location text).map strLower) item = true := by
  obtain ⟨m, hm, hp⟩ := List.any_eq_true.mp h
  have hne : m.1 ≠ LocAlt.floorA := by
    intro hcontra
    rw [hcontra] at hp
    simp at hp
  have hg : m.2 = "" := by
    unfold locMatchesOf at hm
    exact locScan_nonfloor _ _ m hm hne
  have hmem : "" ∈ find_location text := by
    unfold find_location
    have h2 : strLower m.2 ∈
        List.map (fun p : LocAlt × String => strLower p.2) (locMatchesOf text) :=
      List.mem_map_of_mem _ hm
    rw [hg] at h2
    exact h2
  refine ⟨hmem, fun item => ?_⟩
  have hmem2 : "" ∈ (find_location text).map strLower := by
    have h3 : strLower "" ∈ (find_location text).map strLower :=
      List.mem_map_of_mem strLower hmem
    exact h3
  unfold location_match
  by_cases he : ((find_location text).map strLower).isEmpty
  · simp [he]
  · simp only [he, if_false, Bool.if_false_right, Bool.if_true_left]
    exact List.any_eq_true.mpr ⟨"", hmem2, strIn_empty _⟩

/-- Witness for C10 at the query "basement", matched by the basement
alternative outside the capture group. -/
theorem c10_witness :
    "" ∈ find_location "basement" ∧
      location_match ((find_location "basement").map strLower) recRoof = true :=
  ⟨(c10_nongroup_empty_string "basement" rfl).1,
   (c10_nongroup_empty_string "basement" rfl).2 recRoof⟩

end HazardSearch
